import Mathlib

/-!
Verification of the event-program scheduling core of the repository.

The embedding models, from `src/programs/`:
- `ProgramItem` rows and the conflict test `Program._items_conflict`
  (`models.py`), with datetimes as integers;
- the readiness predicate `Program.is_ready` (`models.py`), including its
  explicit `order_by('start_time')` pass and its early-return loop;
- `Program.shared_but_unready` (`models.py`);
- the share-token generation loop `Program.generate_share_token`
  (`models.py`), with the infinite `while True` loop rendered as a fueled
  loop (`none` = the loop has not terminated within the given number of
  iterations);
- the share endpoint `ProgramShareView.post` (`views.py`);
- position auto-assignment in `ProgramItem.save` (`models.py`), including
  the Python `or` fallback on the `Max` aggregate;
- `ProgramItemSerializer.validate` and `_check_conflict`
  (`serializers.py`), including Python's short-circuit `and` and the
  `TypeError` raised when `None` is compared with a datetime, and the
  iteration order of `program.items.all()` given `ProgramItem.Meta.ordering
  = ['position']`;
- `ProgramDetailView.get_object` and `IsOwnerOrAdmin.has_object_permission`
  (`views.py`, `permissions.py`).
-/

namespace Programs

/-- A `ProgramItem` row: identifier, per-program position, and the time
range.  Datetimes are modelled as integers. -/
structure ProgramItemRec where
  id : Nat
  position : Nat
  start_time : Int
  end_time : Int
deriving DecidableEq, Repr

/-- `Program._items_conflict` (models.py): two items conflict iff
`a.start_time < b.end_time and a.end_time > b.start_time`. -/
def items_conflict (a b : ProgramItemRec) : Bool :=
  decide (a.start_time < b.end_time) && decide (a.end_time > b.start_time)

/-- `ProgramItemSerializer._check_conflict` (serializers.py): same strict
overlap test on raw bounds. -/
def check_conflict (start_a end_a start_b end_b : Int) : Bool :=
  decide (start_a < end_b) && decide (end_a > start_b)

/-- The `items.order_by('start_time')` step inside `Program.is_ready`. -/
def sortByStart (items : List ProgramItemRec) : List ProgramItemRec :=
  List.insertionSort (fun a b => a.start_time ≤ b.start_time) items

/-- The main loop of `Program.is_ready`: for each item in the sorted list,
return `false` if its range is invalid, then return `false` on any conflict
with a later item. -/
def readyLoop : List ProgramItemRec → Bool
  | [] => true
  | item :: rest =>
    if item.end_time ≤ item.start_time then false
    else if rest.any (fun other => items_conflict item other) then false
    else readyLoop rest

/-- `Program.is_ready` (models.py): `false` on an empty item set, else run
the range/conflict loop over the items sorted by start time. -/
def is_ready (items : List ProgramItemRec) : Bool :=
  if items.isEmpty then false
  else readyLoop (sortByStart items)

theorem items_conflict_symm (a b : ProgramItemRec) :
    items_conflict a b = items_conflict b a := by
  rw [Bool.eq_iff_iff]
  simp only [items_conflict, Bool.and_eq_true, decide_eq_true_eq]
  omega

theorem readyLoop_eq_true_iff (l : List ProgramItemRec) :
    readyLoop l = true ↔
      (∀ it ∈ l, it.start_time < it.end_time) ∧
        l.Pairwise (fun a b => items_conflict a b = false) := by
  induction l with
  | nil => simp [readyLoop]
  | cons x rest ih =>
    simp only [readyLoop, List.mem_cons, List.pairwise_cons]
    by_cases hx : x.end_time ≤ x.start_time
    · simp only [if_pos hx]
      constructor
      · intro h; exact absurd h (by simp)
      · rintro ⟨hall, -⟩
        exact absurd (hall x (Or.inl rfl)) (by omega)
    · rw [if_neg hx]
      by_cases hc : rest.any (fun other => items_conflict x other) = true
      · rw [if_pos hc]
        obtain ⟨o, ho, hco⟩ := List.any_eq_true.mp hc
        constructor
        · intro h; exact absurd h (by simp)
        · rintro ⟨-, hnoc, -⟩
          exact absurd (hnoc o ho) (by simp [hco])
      · rw [if_neg hc, ih]
        have hnoc : ∀ o ∈ rest, items_conflict x o = false := by
          intro o ho
          by_contra hne
          exact hc (List.any_eq_true.mpr ⟨o, ho, by
            cases h : items_conflict x o with
            | false => exact absurd h hne
            | true => rfl⟩)
        constructor
        · rintro ⟨hall, hpw⟩
          refine ⟨?_, hnoc, hpw⟩
          rintro it (rfl | hit)
          · omega
          · exact hall it hit
        · rintro ⟨hall, -, hpw⟩
          exact ⟨fun it hit => hall it (Or.inr hit), hpw⟩

theorem no_conflict_symm {a b : ProgramItemRec}
    (h : items_conflict a b = false) : items_conflict b a = false := by
  rw [items_conflict_symm]
  exact h

/-- C1: `is_ready` on a program's items returns `false` when the item set is
empty, and for a non-empty item set it returns `true` iff every item has
`end_time > start_time` and no two distinct items' ranges conflict; in
particular any item with `end_time ≤ start_time` forces `false`. -/
theorem is_ready_spec (items : List ProgramItemRec) :
    is_ready items = true ↔
      items ≠ [] ∧ (∀ it ∈ items, it.start_time < it.end_time) ∧
        items.Pairwise (fun a b => items_conflict a b = false) := by
  unfold is_ready
  by_cases h : items.isEmpty
  · rw [if_pos h]
    simp [List.isEmpty_iff.mp h]
  · rw [if_neg h, readyLoop_eq_true_iff]
    have hperm : List.Perm (sortByStart items) items :=
      List.perm_insertionSort _ items
    rw [hperm.pairwise_iff (fun h => no_conflict_symm h)]
    constructor
    · rintro ⟨hall, hpw⟩
      refine ⟨by simpa [List.isEmpty_iff] using h, ?_, hpw⟩
      intro it hit
      exact hall it (hperm.mem_iff.mpr hit)
    · rintro ⟨-, hall, hpw⟩
      exact ⟨fun it hit => hall it (hperm.mem_iff.mp hit), hpw⟩

/-- C2: `conflicts(a, b)` is true iff `a.start < b.end ∧ a.end > b.start`;
back-to-back ranges are not conflicts; the predicate is symmetric; and the
serializer's `_check_conflict` computes the same test. -/
theorem conflicts_spec (a b : ProgramItemRec) :
    (items_conflict a b = true ↔
        a.start_time < b.end_time ∧ a.end_time > b.start_time) ∧
      (a.end_time = b.start_time → items_conflict a b = false) ∧
      items_conflict a b = items_conflict b a ∧
      check_conflict a.start_time a.end_time b.start_time b.end_time =
        items_conflict a b := by
  refine ⟨?_, ?_, items_conflict_symm a b, rfl⟩
  · simp [items_conflict]
  · intro hba
    have : ¬ (a.end_time > b.start_time) := by omega
    simp [items_conflict, this]

/-- Witness for C2 at a concrete back-to-back pair. -/
theorem conflicts_spec_witness :
    items_conflict ⟨1, 1, 0, 5⟩ ⟨2, 2, 5, 9⟩ = false :=
  (conflicts_spec ⟨1, 1, 0, 5⟩ ⟨2, 2, 5, 9⟩).2.1 rfl

/-- The Python error raised when `None` is compared with a datetime. -/
inductive PyErr where
  | typeError
deriving DecidableEq, Repr

/-- Python `<` on optional datetimes: comparing `None` with anything raises
`TypeError`. -/
def pyLt : Option Int → Option Int → Except PyErr Bool
  | some a, some b => .ok (decide (a < b))
  | _, _ => .error .typeError

/-- Python `>` on optional datetimes: comparing `None` with anything raises
`TypeError`. -/
def pyGt : Option Int → Option Int → Except PyErr Bool
  | some a, some b => .ok (decide (a > b))
  | _, _ => .error .typeError

/-- `ProgramItemSerializer._check_conflict` as executed by Python on the
serializer's `data.get(...)` values: `(start_a < end_b) and (end_a >
start_b)` with short-circuit `and`, so the second comparison is evaluated
only when the first is true. -/
def check_conflict_py (start_a end_a start_b end_b : Option Int) :
    Except PyErr Bool :=
  match pyLt start_a end_b with
  | .error e => .error e
  | .ok true => pyGt end_a start_b
  | .ok false => .ok false

/-- Outcome of `ProgramItemSerializer.validate`. -/
inductive ValidateResult where
  /-- validation returned the data unchanged -/
  | ok
  /-- `ValidationError` for `end_time <= start_time` -/
  | invalidRange
  /-- `ValidationError` naming the conflicting sibling -/
  | conflict (sibling : ProgramItemRec)
  /-- an unhandled Python `TypeError` escaped the serializer -/
  | pyTypeError
deriving DecidableEq, Repr

/-- `program.items.all()` returns rows in `ProgramItem.Meta.ordering =
['position']`, i.e. ascending position. -/
def sortByPosition (items : List ProgramItemRec) : List ProgramItemRec :=
  List.insertionSort (fun a b => a.position ≤ b.position) items

/-- The sibling list seen by `ProgramItemSerializer.validate`: the
program's items in position order, minus the instance being updated. -/
def siblingsOf (instancePk : Option Nat) (programItems : List ProgramItemRec) :
    List ProgramItemRec :=
  (sortByPosition programItems).filter (fun it => instancePk ≠ some it.id)

/-- The conflict loop of `ProgramItemSerializer.validate`: raise on the
first sibling for which `_check_conflict` is true, propagating any Python
`TypeError` from the comparison itself. -/
def validateLoop (start_time end_time : Option Int) :
    List ProgramItemRec → ValidateResult
  | [] => .ok
  | sib :: rest =>
    match check_conflict_py start_time end_time
        (some sib.start_time) (some sib.end_time) with
    | .error _ => .pyTypeError
    | .ok true => .conflict sib
    | .ok false => validateLoop start_time end_time rest

/-- The range check of `ProgramItemSerializer.validate`: `if end_time and
start_time and end_time <= start_time` — datetimes are truthy, `None` is
falsy, so the branch fires only when both bounds are present. -/
def rangeInvalid (start_time end_time : Option Int) : Bool :=
  match start_time, end_time with
  | some s, some e => decide (e ≤ s)
  | _, _ => false

/-- `ProgramItemSerializer.validate` (serializers.py) with the program
context present: range check first, then the sibling conflict loop. -/
def validate (start_time end_time : Option Int) (instancePk : Option Nat)
    (programItems : List ProgramItemRec) : ValidateResult :=
  if rangeInvalid start_time end_time then .invalidRange
  else validateLoop start_time end_time (siblingsOf instancePk programItems)

theorem check_conflict_py_some (sa ea sb eb : Int) :
    check_conflict_py (some sa) (some ea) (some sb) (some eb) =
      .ok (check_conflict sa ea sb eb) := by
  simp only [check_conflict_py, pyLt, pyGt, check_conflict]
  by_cases h : sa < eb <;> simp [h]

theorem validateLoop_some (s e : Int) (l : List ProgramItemRec) :
    validateLoop (some s) (some e) l =
      match l.find? (fun it => check_conflict s e it.start_time it.end_time)
        with
      | some sib => .conflict sib
      | none => .ok := by
  induction l with
  | nil => rfl
  | cons sib rest ih =>
    rw [validateLoop, check_conflict_py_some, List.find?]
    by_cases h : check_conflict s e sib.start_time sib.end_time <;>
      simp [h, ih]

instance : IsTotal ProgramItemRec (fun a b => a.position ≤ b.position) :=
  ⟨fun a b => Nat.le_total a.position b.position⟩

instance : IsTrans ProgramItemRec (fun a b => a.position ≤ b.position) :=
  ⟨fun _ _ _ hab hbc => Nat.le_trans hab hbc⟩

/-- The sibling list is iterated in ascending position order. -/
theorem siblingsOf_sorted (instancePk : Option Nat)
    (programItems : List ProgramItemRec) :
    (siblingsOf instancePk programItems).Pairwise
      (fun a b => a.position ≤ b.position) := by
  have h : List.Sorted (fun a b : ProgramItemRec => a.position ≤ b.position)
      (sortByPosition programItems) :=
    List.sorted_insertionSort
      (fun a b : ProgramItemRec => a.position ≤ b.position) programItems
  exact List.Pairwise.filter _ h

/-- C3 (amended): with both bounds supplied, validation fails on a bad
range first, and otherwise reports the FIRST conflicting sibling in the
iteration order of `program.items.all()` — ascending POSITION (the model's
`Meta.ordering`), with the updated item excluded — not ascending
start-time order. -/
theorem validate_first_conflict_in_position_order (s e : Int)
    (instancePk : Option Nat) (programItems : List ProgramItemRec) :
    (siblingsOf instancePk programItems).Pairwise
        (fun a b => a.position ≤ b.position) ∧
      (∀ sib ∈ siblingsOf instancePk programItems, instancePk ≠ some sib.id) ∧
      validate (some s) (some e) instancePk programItems =
        (if e ≤ s then .invalidRange
         else
           match (siblingsOf instancePk programItems).find?
               (fun it => check_conflict s e it.start_time it.end_time) with
           | some sib => .conflict sib
           | none => .ok) := by
  refine ⟨siblingsOf_sorted instancePk programItems, ?_, ?_⟩
  · intro sib hsib
    have := List.of_mem_filter hsib
    simpa using this
  · rw [validate, validateLoop_some]
    simp [rangeInvalid]

/-- Witness for C3 (amended): with the id-2 item excluded as the instance
under update, the only remaining sibling is reported. -/
theorem validate_first_conflict_in_position_order_witness :
    validate (some 0) (some 20) (some 2) [⟨1, 2, 0, 10⟩, ⟨2, 1, 5, 15⟩] =
      .conflict ⟨1, 2, 0, 10⟩ := by
  rw [(validate_first_conflict_in_position_order 0 20 (some 2)
    [⟨1, 2, 0, 10⟩, ⟨2, 1, 5, 15⟩]).2.2]
  decide

def itemPosTwo : ProgramItemRec := ⟨1, 2, 0, 10⟩

def itemPosOne : ProgramItemRec := ⟨2, 1, 5, 15⟩

/-- C3 counterexample: with two conflicting siblings, validation reports
the sibling that is first in POSITION order (`itemPosOne`, start 5), even
though `itemPosTwo` (start 0) is also conflicting and starts earlier — the
report is NOT the first conflict in ascending start-time order. -/
theorem validate_reports_position_order_not_start_order :
    validate (some 0) (some 20) none [itemPosTwo, itemPosOne] =
        .conflict itemPosOne ∧
      check_conflict 0 20 itemPosTwo.start_time itemPosTwo.end_time = true ∧
      itemPosTwo.start_time < itemPosOne.start_time := by
  decide

/-- The sharing-relevant fields of a `Program` row. -/
structure ProgramState where
  share_token : Option String
  shared_at : Option Int
deriving DecidableEq, Repr

/-- The `while True` body of `Program.generate_share_token`, rendered as a
fueled loop: `candidates i` is the `i`-th value drawn from
`secrets.token_urlsafe(32)`, `tokenTaken` is the database uniqueness probe,
and `none` means the loop has not terminated within `fuel` iterations —
the source loop has no exit other than finding a fresh token. -/
def genTokenLoop (tokenTaken : String → Bool) (candidates : Nat → String) :
    Nat → Nat → Option String
  | _, 0 => none
  | i, fuel + 1 =>
    let token := candidates i
    if tokenTaken token then genTokenLoop tokenTaken candidates (i + 1) fuel
    else some token

/-- `Program.generate_share_token` (models.py): keep an existing token
untouched; otherwise loop drawing candidates until one is not in the
database.  The result is the new `share_token` value, `none` meaning the
loop is still running after `fuel` draws. -/
def generate_share_token (current : Option String)
    (tokenTaken : String → Bool) (candidates : Nat → String) (fuel : Nat) :
    Option String :=
  match current with
  | some t => some t
  | none => genTokenLoop tokenTaken candidates 0 fuel

/-- Outcome of `ProgramShareView.post`. -/
inductive ShareResult where
  /-- 200 response with message "Program is already shared." -/
  | alreadyShared (token : String)
  /-- 400 response "Program is not ready to be shared. ..." -/
  | notReady
  /-- 200 response "Program shared successfully." -/
  | shared (token : String)
deriving DecidableEq, Repr

/-- `ProgramShareView.post` (views.py): early-return the existing token if
already shared; else reject when not ready; else generate a token, stamp
`shared_at` with the current time and save.  The outer `Option` is `none`
only when token generation is still looping after `fuel` draws. -/
def sharePost (p : ProgramState) (items : List ProgramItemRec)
    (tokenTaken : String → Bool) (candidates : Nat → String) (fuel : Nat)
    (now : Int) : Option (ShareResult × ProgramState) :=
  match p.share_token with
  | some t => some (.alreadyShared t, p)
  | none =>
    if is_ready items then
      match genTokenLoop tokenTaken candidates 0 fuel with
      | some tok => some (.shared tok, ⟨some tok, some now⟩)
      | none => none
    else some (.notReady, p)

/-- C4: `share()` on an unshared program whose items are not ready fails
with the not-ready bad-request response and leaves the program state
(share_token, shared_at) untouched; on an unshared ready program it sets
the generated token and sets `shared_at` to the current time. -/
theorem share_unshared_spec (p : ProgramState)
    (items : List ProgramItemRec) (tokenTaken : String → Bool)
    (candidates : Nat → String) (fuel : Nat) (now : Int) (tok : String)
    (hunshared : p.share_token = none) :
    (is_ready items = false →
        sharePost p items tokenTaken candidates fuel now =
          some (.notReady, p)) ∧
      (is_ready items = true →
        genTokenLoop tokenTaken candidates 0 fuel = some tok →
          sharePost p items tokenTaken candidates fuel now =
            some (.shared tok, ⟨some tok, some now⟩)) := by
  constructor
  · intro hnr
    simp [sharePost, hunshared, hnr]
  · intro hr hgen
    simp [sharePost, hunshared, hr, hgen]

def readyItem : ProgramItemRec := ⟨1, 1, 0, 10⟩

/-- Witness for C4: concrete unshared states, one not ready (no items) and
one ready, with a fresh first candidate. -/
theorem share_unshared_spec_witness :
    sharePost ⟨none, none⟩ [] (fun _ => false) (fun _ => "tok") 1 42 =
        some (.notReady, ⟨none, none⟩) ∧
      sharePost ⟨none, none⟩ [readyItem] (fun _ => false) (fun _ => "tok") 1
          42 =
        some (.shared "tok", ⟨some "tok", some 42⟩) :=
  ⟨(share_unshared_spec ⟨none, none⟩ [] (fun _ => false) (fun _ => "tok") 1
      42 "tok" rfl).1 (by decide),
    (share_unshared_spec ⟨none, none⟩ [readyItem] (fun _ => false)
      (fun _ => "tok") 1 42 "tok" rfl).2 (by decide) rfl⟩

/-- C5: `share()` on an already-shared program is idempotent: for EVERY
item list, candidate stream and clock, it returns the existing token with
the already-shared indication and the state unmodified — so it never
regenerates the token, never re-checks readiness and never updates
`shared_at`. -/
theorem share_idempotent (p : ProgramState) (items : List ProgramItemRec)
    (tokenTaken : String → Bool) (candidates : Nat → String) (fuel : Nat)
    (now : Int) (t : String) (hshared : p.share_token = some t) :
    sharePost p items tokenTaken candidates fuel now =
      some (.alreadyShared t, p) := by
  simp [sharePost, hshared]

/-- Witness for C5: a shared program with conflicting items still returns
its existing token unchanged. -/
theorem share_idempotent_witness :
    sharePost ⟨some "tok", some 7⟩ [⟨1, 1, 0, 10⟩, ⟨2, 2, 5, 15⟩]
        (fun _ => true) (fun _ => "other") 5 99 =
      some (.alreadyShared "tok", ⟨some "tok", some 7⟩) :=
  share_idempotent ⟨some "tok", some 7⟩ [⟨1, 1, 0, 10⟩, ⟨2, 2, 5, 15⟩]
    (fun _ => true) (fun _ => "other") 5 99 "tok" rfl

theorem genTokenLoop_all_taken (tokenTaken : String → Bool)
    (candidates : Nat → String) (hall : ∀ s, tokenTaken s = true) :
    ∀ fuel i, genTokenLoop tokenTaken candidates i fuel = none := by
  intro fuel
  induction fuel with
  | zero => intro i; rfl
  | succ n ih =>
    intro i
    rw [genTokenLoop]
    simp only [hall (candidates i), if_true]
    exact ih (i + 1)

theorem genTokenLoop_first_fresh (tokenTaken : String → Bool)
    (candidates : Nat → String) :
    ∀ fuel i k, k < fuel →
      (∀ j, j < k → tokenTaken (candidates (i + j)) = true) →
      tokenTaken (candidates (i + k)) = false →
      genTokenLoop tokenTaken candidates i fuel =
        some (candidates (i + k)) := by
  intro fuel
  induction fuel with
  | zero => intro i k hk; omega
  | succ n ih =>
    intro i k hk htaken hfresh
    rw [genTokenLoop]
    match k, hk with
    | 0, _ =>
      simp only [Nat.add_zero] at hfresh
      simp [hfresh]
    | k' + 1, hk =>
      have h0 : tokenTaken (candidates i) = true := by
        have := htaken 0 (Nat.succ_pos k')
        simpa using this
      simp only [h0, if_true]
      have hres := ih (i + 1) k' (by omega)
        (fun j hj => by
          have := htaken (j + 1) (by omega)
          have harr : i + (j + 1) = i + 1 + j := by omega
          rwa [harr] at this)
        (by
          have harr : i + (k' + 1) = i + 1 + k' := by omega
          rwa [harr] at hfresh)
      rw [hres]
      have harr : i + 1 + k' = i + (k' + 1) := by omega
      rw [harr]

/-- C6 (amended): the collision-retry loop in `generate_share_token` has no
retry cap and no token-space-exhausted abort: when every candidate
collides it is still running after ANY number of iterations, and otherwise
it retries exactly until the first fresh candidate and returns it. -/
theorem generate_share_token_unbounded (tokenTaken : String → Bool)
    (candidates : Nat → String) :
    ((∀ s, tokenTaken s = true) → ∀ fuel,
        generate_share_token none tokenTaken candidates fuel = none) ∧
      (∀ k fuel, k < fuel →
        (∀ j, j < k → tokenTaken (candidates j) = true) →
        tokenTaken (candidates k) = false →
        generate_share_token none tokenTaken candidates fuel =
          some (candidates k)) := by
  constructor
  · intro hall fuel
    exact genTokenLoop_all_taken tokenTaken candidates hall fuel 0
  · intro k fuel hk htaken hfresh
    have := genTokenLoop_first_fresh tokenTaken candidates fuel 0 k hk
      (fun j hj => by simpa using htaken j hj) (by simpa using hfresh)
    simpa [generate_share_token] using this

/-- Witness for C6 (amended): under total collision the loop is still
running after 5 draws; with the third candidate fresh it returns it. -/
theorem generate_share_token_unbounded_witness :
    generate_share_token none (fun _ => true) (fun _ => "t") 5 = none ∧
      generate_share_token none (fun s => s ≠ "c2") (fun i => "c" ++
          toString i) 5 = some "c2" :=
  ⟨(generate_share_token_unbounded (fun _ => true) (fun _ => "t")).1
      (fun _ => rfl) 5,
    (generate_share_token_unbounded (fun s => decide (s ≠ "c2"))
        (fun i => "c" ++ toString i)).2 2 5 (by omega) (by decide)
      (by decide)⟩

/-- C6 counterexample: after one million candidate draws that all collide,
the loop has neither returned nor aborted with any exhausted-token-space
signal — there is no bound after which it stops retrying. -/
theorem genTokenLoop_never_aborts :
    genTokenLoop (fun _ => true) (fun _ => "t") 0 1000000 = none :=
  genTokenLoop_all_taken (fun _ => true) (fun _ => "t") (fun _ => rfl)
    1000000 0

/-- The SQL `Max('position')` aggregate: `NULL` (`none`) on an empty row
set, else the maximum. -/
def aggregate_max : List Nat → Option Nat
  | [] => none
  | x :: xs => some (xs.foldl max x)

/-- Python `max_position or 0`: `None` and `0` are both falsy. -/
def pyOrZero : Option Nat → Nat
  | none => 0
  | some m => if m = 0 then 0 else m

/-- The position-assignment step of `ProgramItem.save` (models.py): keep an
explicit position; otherwise `(max_position or 0) + 1` over the sibling
positions of the same program. -/
def assign_position (existing : List Nat) (requested : Option Nat) : Nat :=
  match requested with
  | some p => p
  | none => pyOrZero (aggregate_max existing) + 1

/-- Creating `n` items in sequence with no explicit position: each save
assigns a position from the positions already present and appends it. -/
def create_without_position : Nat → List Nat → List Nat
  | 0, acc => acc
  | n + 1, acc =>
    create_without_position n (acc ++ [assign_position acc none])

theorem pyOrZero_some_add_one (m : Nat) : pyOrZero (some m) + 1 = m + 1 := by
  by_cases h : m = 0 <;> simp [pyOrZero, h]

/-- C7: an item created without an explicit position gets the current
maximum position in the program plus one, defaulting to 1 when the program
has no items; three positionless creations on an empty program yield
positions 1, 2, 3 in creation order. -/
theorem assign_position_spec :
    (∀ existing : List Nat,
        assign_position existing none =
          match aggregate_max existing with
          | none => 1
          | some m => m + 1) ∧
      create_without_position 3 [] = [1, 2, 3] := by
  constructor
  · intro existing
    cases h : aggregate_max existing with
    | none => simp [assign_position, h, pyOrZero]
    | some m => simp [assign_position, h, pyOrZero_some_add_one]
  · decide

/-- A request actor: the `is_staff` / `is_superuser` flags and account id. -/
structure Actor where
  is_staff : Bool
  is_superuser : Bool
  id : Nat
deriving DecidableEq, Repr

/-- A `Program` row as seen by the access checks: primary key and owner. -/
structure ProgramRow where
  pk : Nat
  owner : Nat
deriving DecidableEq, Repr

/-- Errors a lookup can surface.  `forbidden` exists in the type only to
state that the code never produces it. -/
inductive AccessErr where
  | notFound
  | forbidden
deriving DecidableEq, Repr

/-- `ProgramDetailView.get_object` (views.py): staff or superusers look up
by pk alone; everyone else looks up by pk AND ownership, a miss surfacing
as 404 in both cases. -/
def get_object (programs : List ProgramRow) (pk : Nat) (user : Actor) :
    Except AccessErr ProgramRow :=
  if user.is_staff || user.is_superuser then
    match programs.find? (fun q => q.pk == pk) with
    | some p => .ok p
    | none => .error .notFound
  else
    match programs.find? (fun q => q.pk == pk && q.owner == user.id) with
    | some p => .ok p
    | none => .error .notFound

/-- `IsOwnerOrAdmin.has_object_permission` (permissions.py). -/
def has_object_permission (user : Actor) (obj : ProgramRow) : Bool :=
  if user.is_staff || user.is_superuser then true
  else obj.owner == user.id

/-- C8: an administrator may act on any program; a non-administrator may
act only on programs they own, and a program they do not own is reported
as not found — never as forbidden. -/
theorem access_policy_spec (user : Actor) (programs : List ProgramRow)
    (p : ProgramRow) (hmem : p ∈ programs)
    (hpk : ∀ q ∈ programs, q.pk = p.pk → q = p) :
    ((user.is_staff || user.is_superuser) = true →
        get_object programs p.pk user = .ok p ∧
          ∀ obj, has_object_permission user obj = true) ∧
      ((user.is_staff || user.is_superuser) = false → p.owner = user.id →
        get_object programs p.pk user = .ok p ∧
          has_object_permission user p = true) ∧
      ((user.is_staff || user.is_superuser) = false → p.owner ≠ user.id →
        get_object programs p.pk user = .error .notFound ∧
          has_object_permission user p = false) ∧
      ∀ programs2 pk2, get_object programs2 pk2 user ≠ .error .forbidden := by
  refine ⟨?_, ?_, ?_, ?_⟩
  · intro hadmin
    refine ⟨?_, fun obj => by simp [has_object_permission, hadmin]⟩
    have hfind : programs.find? (fun q => q.pk == p.pk) = some p := by
      have hsome : (programs.find? (fun q => q.pk == p.pk)).isSome :=
        List.find?_isSome.mpr ⟨p, hmem, by simp⟩
      obtain ⟨q, hq⟩ := Option.isSome_iff_exists.mp hsome
      have hq1 := List.find?_some hq
      have hq2 : q ∈ programs := List.mem_of_find?_eq_some hq
      have hqpk : q.pk = p.pk := by simpa using hq1
      rw [hq, hpk q hq2 hqpk]
    simp [get_object, hadmin, hfind]
  · intro hnonadmin howner
    have hfind :
        programs.find? (fun q => q.pk == p.pk && q.owner == user.id) =
          some p := by
      have hsome :
          (programs.find?
            (fun q => q.pk == p.pk && q.owner == user.id)).isSome :=
        List.find?_isSome.mpr ⟨p, hmem, by simp [howner]⟩
      obtain ⟨q, hq⟩ := Option.isSome_iff_exists.mp hsome
      have hq1 := List.find?_some hq
      have hq2 : q ∈ programs := List.mem_of_find?_eq_some hq
      have hqpk : q.pk = p.pk := by
        have := hq1
        simp only [Bool.and_eq_true, beq_iff_eq] at this
        exact this.1
      rw [hq, hpk q hq2 hqpk]
    refine ⟨by simp [get_object, hnonadmin, hfind], ?_⟩
    simp [has_object_permission, hnonadmin, howner]
  · intro hnonadmin hnotowner
    have hfind :
        programs.find? (fun q => q.pk == p.pk && q.owner == user.id) =
          none := by
      rw [List.find?_eq_none]
      intro q hq
      by_cases hqpk : q.pk = p.pk
      · have : q = p := hpk q hq hqpk
        subst this
        simp only [Bool.and_eq_true, beq_iff_eq, not_and]
        intro _
        exact hnotowner
      · simp only [Bool.and_eq_true, beq_iff_eq, not_and]
        intro hc
        exact absurd hc hqpk
    refine ⟨by simp [get_object, hnonadmin, hfind], ?_⟩
    have : (p.owner == user.id) = false := by
      simpa using hnotowner
    simp [has_object_permission, hnonadmin, this]
  · intro programs2 pk2
    unfold get_object
    by_cases hadmin : (user.is_staff || user.is_superuser) = true
    · rw [if_pos hadmin]
      cases programs2.find? (fun q => q.pk == pk2) <;> simp
    · rw [if_neg hadmin]
      cases programs2.find? (fun q => q.pk == pk2 && q.owner == user.id) <;>
        simp

/-- Witness for C8: one program owned by user 10; a plain user 20 gets
not-found, the owner and an admin get the row. -/
theorem access_policy_spec_witness :
    get_object [⟨1, 10⟩] 1 ⟨false, false, 20⟩ =
        .error AccessErr.notFound ∧
      get_object [⟨1, 10⟩] 1 ⟨false, false, 10⟩ = .ok ⟨1, 10⟩ ∧
      get_object [⟨1, 10⟩] 1 ⟨true, false, 20⟩ = .ok ⟨1, 10⟩ :=
  ⟨((access_policy_spec ⟨false, false, 20⟩ [⟨1, 10⟩] ⟨1, 10⟩ (by decide)
        (by decide)).2.2.1 rfl (by decide)).1,
    ((access_policy_spec ⟨false, false, 10⟩ [⟨1, 10⟩] ⟨1, 10⟩ (by decide)
        (by decide)).2.1 rfl rfl).1,
    ((access_policy_spec ⟨true, false, 20⟩ [⟨1, 10⟩] ⟨1, 10⟩ (by decide)
        (by decide)).1 rfl).1⟩

/-- `Program.shared_but_unready` (models.py): `self.shared_at is not None
and not self.is_ready`. -/
def shared_but_unready (shared_at : Option Int)
    (items : List ProgramItemRec) : Bool :=
  shared_at.isSome && !(is_ready items)

/-- An item-times update through `ProgramItemDetailView` /
`serializer.save()`: rewrites the matching item row and leaves the program
row (share_token, shared_at) untouched. -/
def update_item_times (p : ProgramState) (items : List ProgramItemRec)
    (itemPk : Nat) (newStart newEnd : Int) :
    ProgramState × List ProgramItemRec :=
  (p, items.map (fun it =>
    if it.id = itemPk then
      { it with start_time := newStart, end_time := newEnd }
    else it))

def sharedState : ProgramState := ⟨some "tok", some 7⟩

def sharedItems : List ProgramItemRec := [⟨1, 1, 0, 10⟩, ⟨2, 2, 10, 20⟩]

def overlappedItems : List ProgramItemRec := [⟨1, 1, 0, 10⟩, ⟨2, 2, 5, 20⟩]

/-- C9: `shared_but_unready` equals (shared_at set AND NOT is_ready); and
editing a shared, previously-ready program so two items overlap leaves
`shared_at` and `share_token` unchanged while `is_ready` becomes false and
`shared_but_unready` becomes true on the next read. -/
theorem shared_but_unready_spec :
    (∀ (shared_at : Option Int) (items : List ProgramItemRec),
        shared_but_unready shared_at items =
          (shared_at.isSome && !(is_ready items))) ∧
      is_ready sharedItems = true ∧
      shared_but_unready sharedState.shared_at sharedItems = false ∧
      update_item_times sharedState sharedItems 2 5 20 =
        (sharedState, overlappedItems) ∧
      is_ready overlappedItems = false ∧
      shared_but_unready sharedState.shared_at overlappedItems = true := by
  refine ⟨fun _ _ => rfl, ?_, ?_, ?_, ?_, ?_⟩ <;> decide

theorem validateLoop_start_only (s : Int) (l : List ProgramItemRec) :
    validateLoop (some s) none l =
      (if l.any (fun sib => decide (s < sib.end_time)) then .pyTypeError
       else .ok) := by
  induction l with
  | nil => simp [validateLoop]
  | cons sib rest ih =>
    rw [validateLoop]
    by_cases h : s < sib.end_time
    · simp [check_conflict_py, pyLt, pyGt, h]
    · simp [check_conflict_py, pyLt, pyGt, h, ih]

/-- C10 (amended): on a partial update supplying only `end_time`, any
sibling at all makes validation die with the unhandled comparison
`TypeError`; supplying only `start_time` dies with the `TypeError` iff
some sibling's `end_time` is after the supplied start (Python's
short-circuit `and` skips the `None` comparison otherwise), in which case
neither a conflict nor an invalid-range result is produced — otherwise
validation completes normally. -/
theorem validate_partial_spec (s e : Int) (instancePk : Option Nat)
    (programItems : List ProgramItemRec) :
    (∀ sib rest, siblingsOf instancePk programItems = sib :: rest →
        validate none (some e) instancePk programItems = .pyTypeError) ∧
      validate (some s) none instancePk programItems =
        (if (siblingsOf instancePk programItems).any
            (fun sib => decide (s < sib.end_time))
         then .pyTypeError else .ok) := by
  constructor
  · intro sib rest hsibs
    rw [validate, if_neg (by simp [rangeInvalid]), hsibs, validateLoop]
    rfl
  · rw [validate, if_neg (by simp [rangeInvalid]), validateLoop_start_only]

/-- Witness for C10 (amended): one sibling `[0, 5)`; updating only
`end_time` dies with the `TypeError`; updating only `start_time` to 100
(after the sibling) completes, while start 3 (before the sibling's end)
dies. -/
theorem validate_partial_spec_witness :
    validate none (some 7) none [⟨4, 1, 0, 5⟩] = .pyTypeError ∧
      validate (some 100) none none [⟨4, 1, 0, 5⟩] = .ok ∧
      validate (some 3) none none [⟨4, 1, 0, 5⟩] = .pyTypeError :=
  ⟨(validate_partial_spec 0 7 none [⟨4, 1, 0, 5⟩]).1 ⟨4, 1, 0, 5⟩ []
      (by decide),
    by
      rw [(validate_partial_spec 100 0 none [⟨4, 1, 0, 5⟩]).2]
      decide,
    by
      rw [(validate_partial_spec 3 0 none [⟨4, 1, 0, 5⟩]).2]
      decide⟩

def siblingEarly : ProgramItemRec := ⟨4, 1, 0, 50⟩

/-- C10 counterexample: a partial update supplying only `start_time`
(set to 100, past the sibling's end) against a program with one sibling
completes validation normally — no unhandled comparison error is raised,
so not every one-sided partial update with a sibling raises one. -/
theorem validate_partial_only_start_completes :
    validate (some 100) none none [siblingEarly] = .ok ∧
      validate (some 100) none none [siblingEarly] ≠ .pyTypeError := by
  decide

end Programs
